import Mathlib

/-!
Verification of the proximity geofencing engine of the Bus-Transport-Details
repository (src/server.js, src/routeCacheManager.js), as a shallow embedding.

Conventions of the embedding:
* JS numbers that hold coordinates or distances are modelled as `ℚ`;
  timestamps (`Date.now()`) as `ℤ` milliseconds.
* A JS value that `Number(...)` turns into `NaN` is modelled as `Option.none`.
* geolib's `getDistance` is kept abstract as a parameter
  `dist : Coord → Coord → ℚ`; the code applies it point-wise and never
  inspects its result other than by comparison.
* In-memory `Map`s are modelled as functions `key → Option value`.
-/

namespace BusTransport

/-- A coordinate pair `(lat, lng)` in decimal degrees. -/
abbrev Coord := ℚ × ℚ

/-- An entry of a route `path` array in `server.js`: each field is the result
of `Number(p.lat)` / `Number(p.lng)`, with `none` standing for `NaN`. -/
structure PathPoint where
  lat : Option ℚ
  lng : Option ℚ
deriving DecidableEq

/-- The coordinates of a path entry when both fields are numbers
(`Number.isNaN` is false for both), mirroring the validity test in
`isPathIntersectsCircle` and `getMinDistanceAlongPath`. -/
def pcoord (p : PathPoint) : Option Coord :=
  match p.lat, p.lng with
  | some a, some b => some (a, b)
  | _, _ => none

/-- Loop body of `isPathIntersectsCircle` (server.js:872-896): walk the path,
skip entries whose lat or lng is `NaN`, return `true` on the first point whose
distance to the centre is `≤ radiusMeters`.  The `minDist`/`minIndex`
book-keeping of the source only feeds debug logging and does not affect the
returned value, so it is omitted here. -/
def intersectsGo (dist : Coord → Coord → ℚ) (user : Coord) (r : ℚ) :
    List PathPoint → Bool
  | [] => false
  | p :: rest =>
    match pcoord p with
    | none => intersectsGo dist user r rest
    | some c => if dist c user ≤ r then true else intersectsGo dist user r rest

/-- `isPathIntersectsCircle(userLocation, path, radiusMeters)`
(server.js:872-896).  `path = none` models a missing (`null`/`undefined`)
path, for which the source returns `false` at once. -/
def isPathIntersectsCircle (dist : Coord → Coord → ℚ) (user : Coord)
    (path : Option (List PathPoint)) (r : ℚ) : Bool :=
  match path with
  | none => false
  | some l => intersectsGo dist user r l

/-- Loop body of `getMinDistanceAlongPath` (server.js:899-913): the running
minimum starts at `Infinity`, modelled as `none`. -/
def minGo (dist : Coord → Coord → ℚ) (user : Coord) :
    List PathPoint → Option ℚ → Option ℚ
  | [], acc => acc
  | p :: rest, acc =>
    match pcoord p with
    | none => minGo dist user rest acc
    | some c =>
      let d := dist c user
      match acc with
      | none => minGo dist user rest (some d)
      | some m => minGo dist user rest (some (if d < m then d else m))

/-- `getMinDistanceAlongPath(userLocation, path)` (server.js:899-913),
projected onto its `minDist` field; `none` models the `Infinity` returned for
a missing/empty path or a path without a single numeric point. -/
def getMinDistanceAlongPath (dist : Coord → Coord → ℚ) (user : Coord)
    (path : Option (List PathPoint)) : Option ℚ :=
  match path with
  | none => none
  | some l => minGo dist user l none

/-- The multi-stop intersection decision of `checkRouteStops`
(server.js:1056-1059): `typeof minDist === 'number' && minDist <= radiusMeters`.
`Infinity` is a JS number but never `≤ radiusMeters`, which the `none` branch
reflects. -/
def intersectsByMinDist (dist : Coord → Coord → ℚ) (user : Coord)
    (path : Option (List PathPoint)) (r : ℚ) : Bool :=
  match getMinDistanceAlongPath dist user path with
  | some m => decide (m ≤ r)
  | none => false

/-- The distances from the user location to the numeric vertices of a path, in
path order (helper for stating the point-wise property). -/
def vertexDists (dist : Coord → Coord → ℚ) (user : Coord) :
    List PathPoint → List ℚ
  | [] => []
  | p :: rest =>
    match pcoord p with
    | none => vertexDists dist user rest
    | some c => dist c user :: vertexDists dist user rest

/-- Minimum of a list of rationals, `none` on the empty list. -/
def listMin : List ℚ → Option ℚ
  | [] => none
  | d :: ds => some (ds.foldl min d)

lemma ite_lt_eq_min (d m : ℚ) : (if d < m then d else m) = min m d := by
  rcases lt_or_le d m with h | h
  · rw [if_pos h, min_eq_right h.le]
  · rw [if_neg (not_lt.mpr h), min_eq_left h]

lemma minGo_some (dist : Coord → Coord → ℚ) (u : Coord) :
    ∀ (l : List PathPoint) (m : ℚ),
      minGo dist u l (some m) = some ((vertexDists dist u l).foldl min m) := by
  intro l
  induction l with
  | nil => intro m; simp [minGo, vertexDists]
  | cons p rest ih =>
    intro m
    cases hp : pcoord p with
    | none => simp [minGo, hp, vertexDists, ih]
    | some c =>
      simp only [minGo, hp, vertexDists, List.foldl_cons, ih,
        ite_lt_eq_min]

lemma minGo_none (dist : Coord → Coord → ℚ) (u : Coord) :
    ∀ l : List PathPoint,
      minGo dist u l none = listMin (vertexDists dist u l) := by
  intro l
  induction l with
  | nil => simp [minGo, vertexDists, listMin]
  | cons p rest ih =>
    cases hp : pcoord p with
    | none => simp [minGo, hp, vertexDists, ih]
    | some c => simp [minGo, hp, vertexDists, listMin, minGo_some]

lemma intersectsGo_iff (dist : Coord → Coord → ℚ) (u : Coord) (r : ℚ) :
    ∀ l : List PathPoint,
      intersectsGo dist u r l = true ↔ ∃ d ∈ vertexDists dist u l, d ≤ r := by
  intro l
  induction l with
  | nil => simp [intersectsGo, vertexDists]
  | cons p rest ih =>
    cases hp : pcoord p with
    | none => simp [intersectsGo, hp, vertexDists, ih]
    | some c =>
      by_cases hd : dist c u ≤ r
      · simp [intersectsGo, hp, vertexDists, hd]
      · simp [intersectsGo, hp, vertexDists, hd, ih]

lemma foldl_min_le (L : List ℚ) :
    ∀ a : ℚ, L.foldl min a ≤ a ∧ ∀ x ∈ L, L.foldl min a ≤ x := by
  induction L with
  | nil => intro a; simp
  | cons b t ih =>
    intro a
    have h := ih (min a b)
    refine ⟨le_trans h.1 (min_le_left a b), ?_⟩
    intro x hx
    rcases List.mem_cons.mp hx with rfl | hx
    · exact le_trans h.1 (min_le_right a x)
    · exact h.2 x hx

lemma foldl_min_mem (L : List ℚ) :
    ∀ a : ℚ, L.foldl min a = a ∨ L.foldl min a ∈ L := by
  induction L with
  | nil => intro a; simp
  | cons b t ih =>
    intro a
    rcases ih (min a b) with h | h
    · rcases min_choice a b with hc | hc
      · left; simp only [List.foldl_cons]; rw [h, hc]
      · right; simp only [List.foldl_cons]; rw [h, hc]; exact List.mem_cons_self b t
    · right; exact List.mem_cons_of_mem b h

lemma listMin_spec (L : List ℚ) (m : ℚ) (h : listMin L = some m) :
    m ∈ L ∧ ∀ x ∈ L, m ≤ x := by
  cases L with
  | nil => simp [listMin] at h
  | cons d ds =>
    simp only [listMin, Option.some.injEq] at h
    subst h
    constructor
    · rcases foldl_min_mem ds d with h | h
      · rw [h]; exact List.mem_cons_self d ds
      · exact List.mem_cons_of_mem d h
    · intro x hx
      rcases List.mem_cons.mp hx with rfl | hx
      · exact (foldl_min_le ds x).1
      · exact (foldl_min_le ds d).2 x hx

lemma exists_le_iff_listMin (L : List ℚ) (r : ℚ) :
    (∃ d ∈ L, d ≤ r) ↔ ∃ m, listMin L = some m ∧ m ≤ r := by
  constructor
  · rintro ⟨d, hd, hdr⟩
    cases hL : listMin L with
    | none =>
      cases L with
      | nil => simp at hd
      | cons a t => simp [listMin] at hL
    | some m =>
      exact ⟨m, rfl, le_trans ((listMin_spec L m hL).2 d hd) hdr⟩
  · rintro ⟨m, hm, hmr⟩
    exact ⟨m, (listMin_spec L m hm).1, hmr⟩

lemma intersectsGo_filter (dist : Coord → Coord → ℚ) (u : Coord) (r : ℚ) :
    ∀ l : List PathPoint,
      intersectsGo dist u r (l.filter fun p => (pcoord p).isSome) =
        intersectsGo dist u r l := by
  intro l
  induction l with
  | nil => rfl
  | cons p rest ih =>
    cases hp : pcoord p with
    | none => simp [List.filter_cons, hp, intersectsGo, ih]
    | some c => simp [List.filter_cons, hp, intersectsGo, ih]

lemma minGo_filter (dist : Coord → Coord → ℚ) (u : Coord) :
    ∀ (l : List PathPoint) (acc : Option ℚ),
      minGo dist u (l.filter fun p => (pcoord p).isSome) acc =
        minGo dist u l acc := by
  intro l
  induction l with
  | nil => intro acc; rfl
  | cons p rest ih =>
    intro acc
    cases hp : pcoord p with
    | none => simp [List.filter_cons, hp, minGo, ih]
    | some c =>
      cases acc with
      | none => simp [List.filter_cons, hp, minGo, ih]
      | some m => simp [List.filter_cons, hp, minGo, ih]

/-- C1: the intersection decision of the proximity matcher is point-wise: the
minimum the code tracks (`getMinDistanceAlongPath`) is exactly the minimum of
the great-circle distances from the user location to the individual numeric
vertices of the path (no segment interpolation), `checkRouteStops`'
multi-point decision `minDist ≤ radiusMeters` agrees with
`isPathIntersectsCircle`, and the path intersects the search circle iff that
minimum vertex distance is at most `radiusMeters`.  The distance function is
abstract: the statement holds for geolib's `getDistance` in particular. -/
theorem isPathIntersectsCircle_pointwise_min
    (dist : Coord → Coord → ℚ) (u : Coord) (l : List PathPoint) (r : ℚ) :
    getMinDistanceAlongPath dist u (some l) = listMin (vertexDists dist u l)
    ∧ intersectsByMinDist dist u (some l) r = isPathIntersectsCircle dist u (some l) r
    ∧ (isPathIntersectsCircle dist u (some l) r = true ↔
        ∃ m, listMin (vertexDists dist u l) = some m ∧ m ≤ r) := by
  have hmin : getMinDistanceAlongPath dist u (some l) = listMin (vertexDists dist u l) :=
    minGo_none dist u l
  have hiff : isPathIntersectsCircle dist u (some l) r = true ↔
      ∃ m, listMin (vertexDists dist u l) = some m ∧ m ≤ r := by
    rw [show isPathIntersectsCircle dist u (some l) r = intersectsGo dist u r l from rfl,
      intersectsGo_iff, exists_le_iff_listMin]
  refine ⟨hmin, ?_, hiff⟩
  rw [show intersectsByMinDist dist u (some l) r =
      (match getMinDistanceAlongPath dist u (some l) with
       | some m => decide (m ≤ r)
       | none => false) from rfl, hmin]
  cases hL : listMin (vertexDists dist u l) with
  | none =>
    have hfalse : isPathIntersectsCircle dist u (some l) r = false := by
      cases hb : isPathIntersectsCircle dist u (some l) r
      · rfl
      · rcases hiff.mp hb with ⟨m, hm, _⟩
        rw [hL] at hm; cases hm
    rw [hfalse]
  | some m =>
    by_cases hmr : m ≤ r
    · rw [hiff.mpr ⟨m, hL, hmr⟩]; simp [hmr]
    · have hfalse : isPathIntersectsCircle dist u (some l) r = false := by
        cases hb : isPathIntersectsCircle dist u (some l) r
        · rfl
        · rcases hiff.mp hb with ⟨m', hm', hm'r⟩
          rw [hL] at hm'
          injection hm' with e
          subst e
          exact absurd hm'r hmr
      rw [hfalse]; simp [hmr]

/-- C10: the intersection check is total on arbitrary path inputs: a missing
path and an empty path both yield `false`, and entries whose lat or lng is not
a number are skipped — filtering them out changes neither the intersection
verdict nor the minimum distance along the path. -/
theorem isPathIntersectsCircle_total_on_bad_input
    (dist : Coord → Coord → ℚ) (u : Coord) (r : ℚ) (l : List PathPoint) :
    isPathIntersectsCircle dist u none r = false
    ∧ isPathIntersectsCircle dist u (some []) r = false
    ∧ isPathIntersectsCircle dist u (some (l.filter fun p => (pcoord p).isSome)) r =
        isPathIntersectsCircle dist u (some l) r
    ∧ getMinDistanceAlongPath dist u (some (l.filter fun p => (pcoord p).isSome)) =
        getMinDistanceAlongPath dist u (some l) := by
  refine ⟨rfl, rfl, ?_, ?_⟩
  · exact intersectsGo_filter dist u r l
  · exact minGo_filter dist u l none

/-- A `{count, windowStart}` rate counter (server.js:198-199). -/
structure RateCounter where
  count : ℕ
  windowStart : ℤ
deriving DecidableEq

/-- The two availability counter maps (`availabilityCounters` keyed by IP and
`availabilityContactCounters` keyed by contact, server.js:198-199). -/
structure AvailState where
  ipCounters : String → Option RateCounter
  contactCounters : String → Option RateCounter

/-- One hour in milliseconds (`hourWindow`, server.js:214). -/
def hourWindowMs : ℤ := 60 * 60 * 1000

/-- `incrementAvailability(ip, contact)` (server.js:212-230): bump the IP
counter (resetting it first when the stored window is more than an hour old)
and, when a contact is given, the contact counter likewise. -/
def incrementAvailability (st : AvailState) (now : ℤ) (ip : String)
    (contact : Option String) : AvailState :=
  let ipObj := (st.ipCounters ip).getD ⟨0, now⟩
  let ipObj := if now - ipObj.windowStart > hourWindowMs then ⟨0, now⟩ else ipObj
  let ipObj : RateCounter := ⟨ipObj.count + 1, ipObj.windowStart⟩
  let st1 : AvailState :=
    ⟨fun k => if k = ip then some ipObj else st.ipCounters k, st.contactCounters⟩
  match contact with
  | none => st1
  | some c =>
    let cObj := (st1.contactCounters c).getD ⟨0, now⟩
    let cObj := if now - cObj.windowStart > hourWindowMs then ⟨0, now⟩ else cObj
    let cObj : RateCounter := ⟨cObj.count + 1, cObj.windowStart⟩
    ⟨st1.ipCounters, fun k => if k = c then some cObj else st1.contactCounters k⟩

/-- `isAvailabilityAllowed(ip, contact)` (server.js:232-240): reject when the
stored IP count has reached `AVAILABILITY_LIMIT_PER_HOUR` (`capIp`) or the
stored contact count has reached `AVAILABILITY_LIMIT_PER_CONTACT_PER_HOUR`
(`capContact`).  Note the source reads the stored `count` without applying the
window reset (`Date.now()` is only used for the default object's
`windowStart`, which the decision never consults). -/
def isAvailabilityAllowed (capIp capContact : ℕ) (st : AvailState) (now : ℤ)
    (ip : String) (contact : Option String) : Bool :=
  let ipObj := (st.ipCounters ip).getD ⟨0, now⟩
  if ipObj.count ≥ capIp then false
  else
    match contact with
    | none => true
    | some c =>
      let cObj := (st.contactCounters c).getD ⟨0, now⟩
      if cObj.count ≥ capContact then false else true

/-- The gate of `POST /api/check-availability` (server.js:1691,1711) for a
well-formed request: consult `isAvailabilityAllowed` first; on success
increment both counters, on failure return 429 leaving the state unchanged. -/
def checkAvailabilityGate (capIp capContact : ℕ) (st : AvailState) (now : ℤ)
    (ip : String) (contact : Option String) : Bool × AvailState :=
  if isAvailabilityAllowed capIp capContact st now ip contact then
    (true, incrementAvailability st now ip contact)
  else (false, st)

/-- The empty counter state (fresh client, no prior history). -/
def emptyAvailState : AvailState := ⟨fun _ => none, fun _ => none⟩

/-- C2 (code bug): with per-IP cap 2 and fresh history, the first two checks in
the hour succeed and the third fails — but a further check two hours later
STILL fails, because `isAvailabilityAllowed` reads the stale counter without
applying the hourly window reset (the reset lives only in
`incrementAvailability`, which is skipped while the client is blocked), so the
claimed recovery after the hour rolls over never happens. -/
theorem availability_gate_never_recovers_after_window :
    (checkAvailabilityGate 2 60 emptyAvailState 0 "1.2.3.4" (some "u@example.com")).1 = true
    ∧ (checkAvailabilityGate 2 60
        (checkAvailabilityGate 2 60 emptyAvailState 0 "1.2.3.4" (some "u@example.com")).2
        1000 "1.2.3.4" (some "u@example.com")).1 = true
    ∧ (checkAvailabilityGate 2 60
        (checkAvailabilityGate 2 60
          (checkAvailabilityGate 2 60 emptyAvailState 0 "1.2.3.4" (some "u@example.com")).2
          1000 "1.2.3.4" (some "u@example.com")).2
        2000 "1.2.3.4" (some "u@example.com")).1 = false
    ∧ (checkAvailabilityGate 2 60
        (checkAvailabilityGate 2 60
          (checkAvailabilityGate 2 60
            (checkAvailabilityGate 2 60 emptyAvailState 0 "1.2.3.4" (some "u@example.com")).2
            1000 "1.2.3.4" (some "u@example.com")).2
          2000 "1.2.3.4" (some "u@example.com")).2
        7200000 "1.2.3.4" (some "u@example.com")).1 = false := by
  refine ⟨rfl, rfl, ?_, ?_⟩ <;> decide

/-- JS `String.prototype.toUpperCase()` for the ASCII strings the code uses
(kernel-reducible, unlike `String.toUpper`). -/
def toUpperStr (s : String) : String := String.mk (s.data.map Char.toUpper)

/-- JS `String.prototype.toLowerCase()` for the ASCII strings the code uses. -/
def toLowerStr (s : String) : String := String.mk (s.data.map Char.toLower)

/-- JS whitespace as far as the code's inputs are concerned. -/
def isJsWsp (c : Char) : Bool := c = ' ' || c = '\t' || c = '\n' || c = '\r'

/-- JS `String.prototype.trim()`: strip whitespace from both ends. -/
def trimStr (s : String) : String :=
  String.mk (((s.data.dropWhile isJsWsp).reverse.dropWhile isJsWsp).reverse)

/-- A cached row of the `RouteCache` table: `routeData` (the stored polyline)
plus its `updatedAt` stamp (routeCacheManager.js). -/
structure RouteCacheEntry where
  routeData : List Coord
  updatedAt : ℤ
deriving DecidableEq

/-- `ROUTE_CACHE_REFRESH_HOURS * 60 * 60 * 1000` (routeCacheManager.js:4,26):
the polyline-cache TTL, 2 hours in milliseconds. -/
def routeCacheMaxAgeMs : ℤ := 2 * 60 * 60 * 1000

/-- `getRouteFromCache(busId, period)` (routeCacheManager.js:9-38): look the
entry up under `(busId, period.toUpperCase())`; treat it as absent when
`Date.now() - updatedAt > maxAge`, otherwise return its `routeData`. -/
def getRouteFromCache (store : ℕ → String → Option RouteCacheEntry)
    (busId : ℕ) (period : String) (now : ℤ) : Option (List Coord) :=
  match store busId (toUpperStr period) with
  | none => none
  | some cached =>
    if now - cached.updatedAt > routeCacheMaxAgeMs then none
    else some cached.routeData

/-- A store holding a single entry for bus 1, MORNING, built at `t0 = 0`. -/
def singleEntryStore : ℕ → String → Option RouteCacheEntry :=
  fun b p =>
    if b = 1 then
      if p = "MORNING" then some ⟨[((0 : ℚ), (0 : ℚ))], 0⟩ else none
    else none

/-- C4 counterexample: an entry built at `t0 = 0` is still returned at
`t0 + 2h` exactly, although `now - builtAt < TTL` fails there — the code
expires on `age > TTL`, not on `age ≥ TTL`, so "returns the stored entry only
if now − builtAt < TTL" is false at the boundary. -/
theorem getRouteFromCache_ttl_boundary_counterexample :
    getRouteFromCache singleEntryStore 1 "morning" 7200000 =
      some [((0 : ℚ), (0 : ℚ))]
    ∧ ¬((7200000 : ℤ) - 0 < routeCacheMaxAgeMs) := by
  exact ⟨by decide, by decide⟩

/-- C4 (amended): the polyline-cache read returns the stored entry iff one
exists under `(routeId, direction.toUpperCase())` and `now − builtAt ≤ TTL`
(TTL = 2 h, boundary inclusive; strictly older entries are treated as absent),
for every route id and direction; in particular an entry built at `t0` is
returned at `t0 + 1h59m` and treated as absent at `t0 + 2h01m`. -/
theorem getRouteFromCache_ttl_amended :
    (∀ (store : ℕ → String → Option RouteCacheEntry) (busId : ℕ)
        (period : String) (now : ℤ),
      (getRouteFromCache store busId period now).isSome = true ↔
        ∃ e, store busId (toUpperStr period) = some e
          ∧ now - e.updatedAt ≤ routeCacheMaxAgeMs)
    ∧ getRouteFromCache singleEntryStore 1 "MORNING" (0 + 119 * 60000) =
        some [((0 : ℚ), (0 : ℚ))]
    ∧ getRouteFromCache singleEntryStore 1 "MORNING" (0 + 121 * 60000) = none := by
  refine ⟨?_, by decide, by decide⟩
  intro store busId period now
  unfold getRouteFromCache
  cases hs : store busId (toUpperStr period) with
  | none => simp
  | some e =>
    show (if now - e.updatedAt > routeCacheMaxAgeMs then none
        else some e.routeData).isSome = true ↔
      ∃ e', some e = some e' ∧ now - e'.updatedAt ≤ routeCacheMaxAgeMs
    by_cases hage : now - e.updatedAt > routeCacheMaxAgeMs
    · rw [if_pos hage]
      simp only [Option.isSome_none, Bool.false_eq_true, false_iff, not_exists]
      rintro e' ⟨he1, he2⟩
      rw [Option.some_inj] at he1
      subst he1
      omega
    · rw [if_neg hage]
      simp only [Option.isSome_some, true_iff]
      exact ⟨e, rfl, by omega⟩

/-- The debounce scheduler's state (server.js:463-464): `_lastRouteBuildTs`
and the pending timer `_routeRebuildTimer`, represented by its fire time. -/
structure SchedState where
  lastBuildTs : ℤ
  pending : Option ℤ
deriving DecidableEq

/-- `scheduleRouteCacheRebuild()` in its non-immediate form (server.js:466-489):
clear any pending timer and schedule a new one after
`max(0, ROUTE_BUILD_COOLDOWN_MS - (now - _lastRouteBuildTs))`. -/
def scheduleRouteCacheRebuild (cooldown : ℤ) (st : SchedState) (now : ℤ) :
    SchedState :=
  ⟨st.lastBuildTs, some (now + max 0 (cooldown - (now - st.lastBuildTs)))⟩

/-- Timer semantics: if the pending timer's fire time has passed by `now`, it
fires first — `buildAllRoutePolylines` runs and `_lastRouteBuildTs` is stamped
with the fire time (server.js:475-484). -/
def fireDue (st : SchedState) (now : ℤ) : List ℤ × SchedState :=
  match st.pending with
  | some f => if f ≤ now then ([f], ⟨f, none⟩) else ([], st)
  | none => ([], st)

/-- Run a burst of rebuild signals at the given (time-ordered) instants, then
let any remaining timer fire; returns the list of `buildAllRoutePolylines`
invocation times alongside the final state. -/
def runBurst (cooldown : ℤ) (st : SchedState) : List ℤ → List ℤ × SchedState
  | [] =>
    match st.pending with
    | some f => ([f], ⟨f, none⟩)
    | none => ([], st)
  | t :: ts =>
    let fd := fireDue st t
    let st2 := scheduleRouteCacheRebuild cooldown fd.2 t
    let rec2 := runBurst cooldown st2 ts
    (fd.1 ++ rec2.1, rec2.2)

lemma schedule_fire_time (cooldown t0 now : ℤ) :
    now + max 0 (cooldown - (now - t0)) = max now (t0 + cooldown) := by
  rw [max_def, max_def]
  split_ifs <;> omega

lemma foldl_max_le_int (L : List ℤ) :
    ∀ a c : ℤ, a ≤ c → (∀ x ∈ L, x ≤ c) → L.foldl max a ≤ c := by
  induction L with
  | nil => intro a c h _; simpa using h
  | cons b t ih =>
    intro a c ha hall
    simp only [List.foldl_cons]
    exact ih (max a b) c
      (max_le ha (hall b (List.mem_cons_self b t)))
      (fun x hx => hall x (List.mem_cons_of_mem b hx))

lemma runBurst_within_window (cooldown : ℤ) :
    ∀ (ts : List ℤ) (t0 : ℤ), (∀ u ∈ ts, u < t0 + cooldown) →
      runBurst cooldown ⟨t0, some (t0 + cooldown)⟩ ts =
        ([t0 + cooldown], ⟨t0 + cooldown, none⟩) := by
  intro ts
  induction ts with
  | nil => intro t0 _; rfl
  | cons u rest ih =>
    intro t0 hall
    have hu : u < t0 + cooldown := hall u (List.mem_cons_self u rest)
    have hfd : fireDue ⟨t0, some (t0 + cooldown)⟩ u =
        ([], ⟨t0, some (t0 + cooldown)⟩) := by
      show (if t0 + cooldown ≤ u then
            (([t0 + cooldown] : List ℤ), (⟨t0 + cooldown, none⟩ : SchedState))
          else (([] : List ℤ), (⟨t0, some (t0 + cooldown)⟩ : SchedState)))
        = (([] : List ℤ), (⟨t0, some (t0 + cooldown)⟩ : SchedState))
      rw [if_neg (by omega : ¬ t0 + cooldown ≤ u)]
    have hsched : scheduleRouteCacheRebuild cooldown ⟨t0, some (t0 + cooldown)⟩ u
        = ⟨t0, some (t0 + cooldown)⟩ := by
      unfold scheduleRouteCacheRebuild
      rw [schedule_fire_time, max_eq_right hu.le]
    have hstep : runBurst cooldown ⟨t0, some (t0 + cooldown)⟩ (u :: rest)
        = ((fireDue ⟨t0, some (t0 + cooldown)⟩ u).1 ++
            (runBurst cooldown (scheduleRouteCacheRebuild cooldown
              (fireDue ⟨t0, some (t0 + cooldown)⟩ u).2 u) rest).1,
          (runBurst cooldown (scheduleRouteCacheRebuild cooldown
            (fireDue ⟨t0, some (t0 + cooldown)⟩ u).2 u) rest).2) := rfl
    rw [hstep, hfd]
    simp only
    rw [hsched, ih t0 (fun x hx => hall x (List.mem_cons_of_mem u hx))]
    rfl

/-- C3 counterexample: with the last build at `t0 = 0` and cooldown 300000 ms,
two rebuild signals at 1000 ms and 2000 ms (within one cooldown window of each
other, and the second before the pending fire time of 300000 ms) coalesce into
exactly one `buildAllRoutePolylines` invocation — but it fires at 300000 ms,
the cooldown measured from the last BUILD, not at 2000 + 300000 ms, the
cooldown measured from the last signal as the claim states. -/
theorem route_rebuild_fire_time_counterexample :
    runBurst 300000 ⟨0, none⟩ [1000, 2000] = ([300000], ⟨300000, none⟩)
    ∧ (2000 : ℤ) - 1000 < 300000
    ∧ (2000 : ℤ) < 300000
    ∧ (300000 : ℤ) ≠ 2000 + 300000 := by
  exact ⟨by decide, by decide, by decide, by decide⟩

/-- C3 (amended): for a burst of N ≥ 1 time-ordered rebuild signals in which
every signal after the first arrives before the pending fire time (equivalent,
given the ordering, to arriving before lastBuild + cooldown), exactly one
`buildAllRoutePolylines` invocation results; each new signal cancels and
reschedules the pending timer (trailing-edge debounce), and the single build
fires at `max(last signal, last build + cooldown)` — the cooldown is measured
from the last completed build, not from the last signal, so a signal arriving
with the cooldown already elapsed fires immediately. -/
theorem route_rebuild_debounce_amended (cooldown t0 t : ℤ) (ts : List ℤ)
    (hchain : List.Chain' (· ≤ ·) (t :: ts))
    (hburst : ∀ u ∈ ts, u < t0 + cooldown) :
    runBurst cooldown ⟨t0, none⟩ (t :: ts) =
      ([max (ts.foldl max t) (t0 + cooldown)],
       ⟨max (ts.foldl max t) (t0 + cooldown), none⟩) := by
  have hsched0 : scheduleRouteCacheRebuild cooldown ⟨t0, none⟩ t
      = ⟨t0, some (max t (t0 + cooldown))⟩ := by
    unfold scheduleRouteCacheRebuild
    rw [schedule_fire_time]
  have hstep : runBurst cooldown ⟨t0, none⟩ (t :: ts)
      = ((fireDue ⟨t0, none⟩ t).1 ++
          (runBurst cooldown (scheduleRouteCacheRebuild cooldown
            (fireDue ⟨t0, none⟩ t).2 t) ts).1,
        (runBurst cooldown (scheduleRouteCacheRebuild cooldown
          (fireDue ⟨t0, none⟩ t).2 t) ts).2) := rfl
  have hfd0 : fireDue ⟨t0, none⟩ t = ([], ⟨t0, none⟩) := rfl
  rw [hstep, hfd0]
  simp only
  rw [hsched0]
  cases ts with
  | nil => rfl
  | cons u rest =>
    have htu : t ≤ u := (List.chain'_cons.mp hchain).1
    have hu : u < t0 + cooldown := hburst u (List.mem_cons_self u rest)
    have ht : t < t0 + cooldown := lt_of_le_of_lt htu hu
    rw [max_eq_right ht.le]
    rw [runBurst_within_window cooldown (u :: rest) t0 hburst]
    have hfold : (u :: rest).foldl max t ≤ t0 + cooldown :=
      foldl_max_le_int (u :: rest) t (t0 + cooldown) ht.le
        (fun x hx => (hburst x hx).le)
    rw [max_eq_right hfold]
    rfl

/-- C3 witness: the amended theorem applied to the concrete burst of the
counterexample — signals at 1000 ms and 2000 ms with the last build at 0 and
cooldown 300000 ms produce exactly one build, at 300000 ms. -/
theorem route_rebuild_debounce_amended_witness :
    runBurst 300000 ⟨0, none⟩ [1000, 2000] = ([300000], ⟨300000, none⟩) := by
  have h := route_rebuild_debounce_amended 300000 0 1000 [2000]
    (by norm_num [List.chain'_cons, List.chain'_singleton]) (by decide)
  rw [h]
  decide

/-- A stop record as consumed by `buildForStops` (already filtered by period
and sorted by order): only its coordinates matter. -/
structure Stop where
  lat : ℚ
  lng : ℚ
deriving DecidableEq

/-- The `{lat, lng}` projection of a stop. -/
def coordOfStop (s : Stop) : Coord := (s.lat, s.lng)

/-- The straight-line sequence `[o, ...waypoints, d]` used as fallback in
`getRoutePath` (server.js:815, 821, 846, 849). -/
def straightLinePath (o : Coord) (wps : List Coord) (d : Coord) : List Coord :=
  o :: (wps ++ [d])

/-- `getRoutePath(origin, destination, waypoints)` (server.js:808-852) after
abstracting the network: `hasKey` is `GOOGLE_MAPS_KEY` being configured,
`quotaOk` the verdict of `checkAndIncrementGoogleUsage()`, and
`providerPolyline` the decoded overview polyline when the Directions call
succeeds (`none` covering HTTP errors, bad status, and parse failures).  Every
failure branch resolves to the straight-line point sequence; the function
never rejects. -/
def getRoutePath (hasKey quotaOk : Bool)
    (providerPolyline : Option (List Coord)) (o d : Coord)
    (wps : List Coord) : List Coord :=
  if hasKey = false then straightLinePath o wps d
  else if quotaOk = false then straightLinePath o wps d
  else
    match providerPolyline with
    | some decoded => decoded
    | none => straightLinePath o wps d

/-- `buildForStops` inside `buildRouteForBus` (server.js:418-431): 0 stops →
empty path, 1 stop → that point, otherwise first stop is origin, last is
destination, the rest are waypoints, handed to `getRoutePath`. -/
def buildForStops (hasKey quotaOk : Bool)
    (providerPolyline : Option (List Coord)) : List Stop → List Coord
  | [] => []
  | [s] => [coordOfStop s]
  | s :: rest =>
    getRoutePath hasKey quotaOk providerPolyline
      (coordOfStop s) (coordOfStop (rest.getLastD s))
      (rest.dropLast.map coordOfStop)

lemma dropLast_map_append_getLastD (f : Stop → Coord) :
    ∀ (l : List Stop) (a : Stop), l ≠ [] →
      (l.dropLast.map f) ++ [f (l.getLastD a)] = l.map f := by
  intro l
  induction l with
  | nil => intro a h; exact absurd rfl h
  | cons x t ih =>
    intro a _
    cases t with
    | nil => rfl
    | cons y t2 =>
      have ih2 := ih a (List.cons_ne_nil y t2)
      simp only [List.getLastD_cons] at ih2 ⊢
      simp only [List.dropLast_cons₂, List.map_cons, List.cons_append]
      rw [ih2]
      simp

/-- C5: the route path builder returns the empty path for 0 stops, a
single-point path for 1 stop, and — whenever the routing provider is
unavailable (no key, daily budget exhausted, or a failed Directions call) —
exactly the straight-line sequence origin, waypoints, destination in the
original stop order with no interpolated points, i.e. the stops themselves. -/
theorem buildForStops_degenerate_and_fallback
    (hasKey quotaOk : Bool) (providerPolyline : Option (List Coord))
    (s : Stop) (stops : List Stop) :
    buildForStops hasKey quotaOk providerPolyline [] = []
    ∧ buildForStops hasKey quotaOk providerPolyline [s] = [coordOfStop s]
    ∧ ((hasKey = false ∨ quotaOk = false ∨ providerPolyline = none) →
        2 ≤ stops.length →
        buildForStops hasKey quotaOk providerPolyline stops =
          stops.map coordOfStop) := by
  refine ⟨rfl, rfl, ?_⟩
  intro hfail hlen
  match stops, hlen with
  | a :: b :: t, _ =>
    have hfallback : getRoutePath hasKey quotaOk providerPolyline
        (coordOfStop a) (coordOfStop ((b :: t).getLastD a))
        ((b :: t).dropLast.map coordOfStop) =
        straightLinePath (coordOfStop a)
          ((b :: t).dropLast.map coordOfStop)
          (coordOfStop ((b :: t).getLastD a)) := by
      rcases hfail with h | h | h
      · unfold getRoutePath; rw [h]; rfl
      · unfold getRoutePath
        cases hasKey
        · rfl
        · rw [h]; rfl
      · unfold getRoutePath
        cases hasKey
        · rfl
        · cases quotaOk
          · rfl
          · rw [h]; rfl
    show getRoutePath hasKey quotaOk providerPolyline
        (coordOfStop a) (coordOfStop ((b :: t).getLastD a))
        ((b :: t).dropLast.map coordOfStop) = (a :: b :: t).map coordOfStop
    rw [hfallback]
    unfold straightLinePath
    rw [dropLast_map_append_getLastD coordOfStop (b :: t) a
      (List.cons_ne_nil b t)]
    rfl

/-- C5 witness: for stops `[(0,0), (0,1)]` with no routing provider key the
built path is exactly `[(0,0), (0,1)]` — the spec's multi-stop straight-line
fallback example — obtained from the theorem at that concrete input. -/
theorem buildForStops_degenerate_and_fallback_witness :
    buildForStops false true none [⟨0, 0⟩, ⟨0, 1⟩] =
      [((0 : ℚ), (0 : ℚ)), ((0 : ℚ), (1 : ℚ))] := by
  have h := (buildForStops_degenerate_and_fallback false true none
    ⟨0, 0⟩ [⟨0, 0⟩, ⟨0, 1⟩]).2.2 (Or.inl rfl) (by decide)
  rw [h]
  decide

/-- A `{lat, lng, formatted_address}` geocode result. -/
structure GeoResult where
  lat : ℚ
  lng : ℚ
  formatted_address : String
deriving DecidableEq

/-- What `geocodeLocation` hands back to (or throws at) its caller. -/
inductive GeoOutcome where
  /-- `throw new Error('Invalid location for geocoding')` (server.js:501). -/
  | invalidInput
  /-- A resolved `{lat, lng, formatted_address}`. -/
  | ok (r : GeoResult)
  /-- `nominatimGeocode` resolved `null` (no results, server.js:610). -/
  | nullResult
  /-- `throw new Error('Google Maps daily usage limit exceeded')`
  (server.js:512). -/
  | quotaError
  /-- `reject(new Error('Geocode failed: ...'))` (server.js:577-578). -/
  | failed
deriving DecidableEq

/-- The environment of one `geocodeLocation` call: whether `GOOGLE_MAPS_KEY`
is configured, the verdict of `checkAndIncrementGoogleUsage()`, the candidate
the Google branch would select (after bias preferences) and the result the
Nominatim fallback would produce (`none` = no results / network error). -/
structure GeoEnv where
  hasKey : Bool
  quotaOk : Bool
  googleResult : Option GeoResult
  nominatimResult : Option GeoResult

/-- The cache key normalization of `geocodeLocation` (server.js:502):
`locationName.trim().toLowerCase()`. -/
def normKey (s : String) : String := toLowerStr (trimStr s)

/-- `geocodeLocation(locationName)` (server.js:500-583) with the network
abstracted into `GeoEnv`: returns the outcome, the updated `geocodeCache`, and
the number of provider calls performed.  Mirrors the source's order: input
check, cache lookup, Nominatim-only path when no key is configured
(server.js:506-508, which caches under the same normalized key,
server.js:607), quota gate (server.js:511-513), Google call caching the chosen
result (server.js:571), Nominatim fallback on empty Google results
(server.js:575-578). -/
def geocodeLocation (env : GeoEnv) (cache : String → Option GeoResult)
    (name : String) : GeoOutcome × (String → Option GeoResult) × ℕ :=
  if name = "" then (.invalidInput, cache, 0)
  else
    match cache (normKey name) with
    | some r => (.ok r, cache, 0)
    | none =>
      if env.hasKey = false then
        match env.nominatimResult with
        | some r =>
          (.ok r, fun k => if k = normKey name then some r else cache k, 1)
        | none => (.nullResult, cache, 1)
      else if env.quotaOk = false then (.quotaError, cache, 0)
      else
        match env.googleResult with
        | some r =>
          (.ok r, fun k => if k = normKey name then some r else cache k, 1)
        | none =>
          match env.nominatimResult with
          | some r =>
            (.ok r, fun k => if k = normKey name then some r else cache k, 2)
          | none => (.failed, cache, 2)

/-- C6 counterexample: with a Google key configured, an empty cache and the
internal usage governor denying the call (`tryConsumeProviderCall` /
`checkAndIncrementGoogleUsage` returning false), `geocodeLocation` does NOT
take a fallback path: it throws the quota-exhaustion error straight at its
caller (server.js:511-513), refuting "no quota-exhaustion error is ever
propagated to the caller of the geocoding operation". -/
theorem geocode_quota_error_propagates_counterexample :
    (geocodeLocation ⟨true, false, none, none⟩ (fun _ => none)
      "Vijayawada Railway Station").1 = GeoOutcome.quotaError := by
  decide

/-- C6 (amended): when the usage governor denies a provider call, the route
path builder `getRoutePath` falls back to the straight-line path (no error
reaches the proximity matcher's caller), but the forward geocoder
`geocodeLocation` — on a cache miss with a key configured — propagates a
quota-exhaustion error to its caller instead of falling back. -/
theorem quota_denial_behavior_amended :
    (∀ (providerPolyline : Option (List Coord)) (o d : Coord)
        (wps : List Coord),
      getRoutePath true false providerPolyline o d wps =
        straightLinePath o wps d)
    ∧ (∀ (g n : Option GeoResult) (cache : String → Option GeoResult)
        (name : String), name ≠ "" → cache (normKey name) = none →
      (geocodeLocation ⟨true, false, g, n⟩ cache name).1 =
        GeoOutcome.quotaError) := by
  constructor
  · intro providerPolyline o d wps
    rfl
  · intro g n cache name hname hmiss
    unfold geocodeLocation
    rw [if_neg hname, hmiss]
    rfl

/-- C6 witness: the amended theorem at a concrete input — quota denied, the
route path for origin (0,0), waypoint (0,1), destination (0,2) degrades to the
straight line, and the geocoder yields the quota error. -/
theorem quota_denial_behavior_amended_witness :
    getRoutePath true false (some [((5 : ℚ), (5 : ℚ))]) ((0 : ℚ), (0 : ℚ))
        ((0 : ℚ), (2 : ℚ)) [((0 : ℚ), (1 : ℚ))] =
      [((0 : ℚ), (0 : ℚ)), ((0 : ℚ), (1 : ℚ)), ((0 : ℚ), (2 : ℚ))]
    ∧ (geocodeLocation ⟨true, false, none, none⟩ (fun _ => none) "Benz Circle").1 =
        GeoOutcome.quotaError := by
  constructor
  · have h := quota_denial_behavior_amended.1 (some [((5 : ℚ), (5 : ℚ))])
      ((0 : ℚ), (0 : ℚ)) ((0 : ℚ), (2 : ℚ)) [((0 : ℚ), (1 : ℚ))]
    rw [h]
    rfl
  · exact quota_denial_behavior_amended.2 none none (fun _ => none)
      "Benz Circle" (by decide) rfl

lemma geocode_cache_hit (env : GeoEnv) (cache : String → Option GeoResult)
    (n : String) (r : GeoResult) (hn : n ≠ "")
    (hhit : cache (normKey n) = some r) :
    geocodeLocation env cache n = (GeoOutcome.ok r, cache, 0) := by
  unfold geocodeLocation
  rw [if_neg hn, hhit]

lemma geocode_cache_after_ok (env : GeoEnv)
    (cache : String → Option GeoResult) (n1 : String) (r : GeoResult) :
    (geocodeLocation env cache n1).1 = GeoOutcome.ok r →
      (geocodeLocation env cache n1).2.1 (normKey n1) = some r := by
  unfold geocodeLocation
  by_cases h1 : n1 = ""
  · rw [if_pos h1]
    intro hok
    cases hok
  · rw [if_neg h1]
    cases hc : cache (normKey n1) with
    | some r0 =>
      intro hok
      simp only at hok ⊢
      injection hok with hr0
      rw [hc, hr0]
    | none =>
      by_cases hk : env.hasKey = false
      · rw [if_pos hk]
        cases hnom : env.nominatimResult with
        | some rn =>
          intro hok
          simp only at hok ⊢
          injection hok with hrn
          simp [hrn]
        | none =>
          intro hok
          cases hok
      · rw [if_neg hk]
        by_cases hq : env.quotaOk = false
        · rw [if_pos hq]
          intro hok
          cases hok
        · rw [if_neg hq]
          cases hg : env.googleResult with
          | some rg =>
            intro hok
            simp only at hok ⊢
            injection hok with hrg
            simp [hrg]
          | none =>
            cases hnom : env.nominatimResult with
            | some rn =>
              intro hok
              simp only at hok ⊢
              injection hok with hrn
              simp [hrn]
            | none =>
              intro hok
              cases hok

/-- C7: if a forward geocode call on input `n1` succeeds with result `r`, then
a second forward call against the resulting cache, with any non-empty input
`n2` equal to `n1` up to trimming and lower-casing (the cache key
normalization), returns the identical cached result and performs zero provider
calls — whatever the provider environment of the second call.  (Non-emptiness
of `n2` is §4.1's input contract: `forward` takes a non-empty string.) -/
theorem geocode_forward_idempotent
    (env env2 : GeoEnv) (cache : String → Option GeoResult)
    (n1 n2 : String) (r : GeoResult)
    (hn2 : n2 ≠ "") (hkey : normKey n2 = normKey n1)
    (hok : (geocodeLocation env cache n1).1 = GeoOutcome.ok r) :
    geocodeLocation env2 (geocodeLocation env cache n1).2.1 n2 =
      (GeoOutcome.ok r, (geocodeLocation env cache n1).2.1, 0) := by
  have hhit : (geocodeLocation env cache n1).2.1 (normKey n2) = some r := by
    rw [hkey]
    exact geocode_cache_after_ok env cache n1 r hok
  exact geocode_cache_hit env2 _ n2 r hn2 hhit

/-- C7 witness: a first call on `"  Station Road  "` (no key, Nominatim
succeeding) resolves and caches; a second call on `"station road"` — equal up
to trim/lower-case — returns the identical result from the cache with zero
provider calls, even with every provider now unavailable. -/
theorem geocode_forward_idempotent_witness :
    geocodeLocation ⟨true, false, none, none⟩
        ((geocodeLocation ⟨false, true, none, some ⟨16, 80, "Station Road"⟩⟩
          (fun _ => none) "  Station Road  ").2.1) "station road" =
      (GeoOutcome.ok ⟨16, 80, "Station Road"⟩,
        (geocodeLocation ⟨false, true, none, some ⟨16, 80, "Station Road"⟩⟩
          (fun _ => none) "  Station Road  ").2.1, 0) := by
  exact geocode_forward_idempotent
    ⟨false, true, none, some ⟨16, 80, "Station Road"⟩⟩
    ⟨true, false, none, none⟩ (fun _ => none)
    "  Station Road  " "station road" ⟨16, 80, "Station Road"⟩
    (by decide) (by decide) (by decide)

/-- JS `Number(x).toFixed(6)` rounds to the nearest multiple of `10^-6`, ties
away from the decimal midpoint upward; the cache key
`lat.toFixed(6) + ',' + lng.toFixed(6)` (server.js:669) is modelled as the
pair of scaled integers (string formatting is injective on them). -/
def round6 (x : ℚ) : ℤ := round (x * 1000000)

/-- What `reverseGeocode` hands back to (or throws at) its caller. -/
inductive RevOutcome where
  /-- A formatted address. -/
  | ok (addr : String)
  /-- The Google branch resolved `null` (non-OK status or network error,
  server.js:700, 704). -/
  | nullResult
  /-- A thrown error (quota, or `'Google Maps API key not configured'`,
  server.js:683, 686). -/
  | error
deriving DecidableEq

/-- Environment of one `reverseGeocode` call: key configured, quota verdict,
what Google's reverse lookup would return (`none` = non-OK / error), and what
Nominatim's would (`none` = no `display_name` / error). -/
structure RevEnv where
  hasKey : Bool
  quotaOk : Bool
  googleAddr : Option String
  nominatimAddr : Option String

/-- `reverseGeocode(lat, lng)` (server.js:668-706): cache key is the
6-decimal-rounded coordinates; cache hit returns directly; without a key,
Nominatim success is cached and returned while failure throws
`'Google Maps API key not configured'`; with a key, quota denial throws and a
failed Google lookup resolves `null` (no Nominatim fallback on that path). -/
def reverseGeocode (env : RevEnv) (cache : ℤ × ℤ → Option String)
    (lat lng : ℚ) : RevOutcome × (ℤ × ℤ → Option String) × ℕ :=
  match cache (round6 lat, round6 lng) with
  | some a => (.ok a, cache, 0)
  | none =>
    if env.hasKey = false then
      match env.nominatimAddr with
      | some a =>
        (.ok a, fun k => if k = (round6 lat, round6 lng) then some a else cache k, 1)
      | none => (.error, cache, 1)
    else if env.quotaOk = false then (.error, cache, 0)
    else
      match env.googleAddr with
      | some a =>
        (.ok a, fun k => if k = (round6 lat, round6 lng) then some a else cache k, 1)
      | none => (.nullResult, cache, 1)

/-- A formatted address as produced by `geocodeLatLng`: either a provider
address, or the synthesized template string of the raw coordinates
(backtick-interpolated `lat, lng`, server.js:753, 758, 766, 768). -/
inductive Addr where
  | named (s : String)
  | rawCoords (lat lng : ℚ)
deriving DecidableEq

/-- What `geocodeLatLng` returns or throws. -/
inductive LatLngOutcome where
  /-- `{ formatted_address, lat, lng }`. -/
  | ok (formatted : Addr) (lat lng : ℚ)
  /-- A thrown error (quota denial, server.js:738). -/
  | error
deriving DecidableEq

/-- Environment of one `geocodeLatLng` call; Google's result carries the
formatted address together with `geometry.location`. -/
structure LatLngEnv where
  hasKey : Bool
  quotaOk : Bool
  googleResult : Option (String × ℚ × ℚ)
  nominatimAddr : Option String

/-- `geocodeLatLng(lat, lng)` (server.js:732-770): no caching at all; with a
key, quota denial throws, Google success returns its address and location, and
on Google failure the Nominatim address is used with the input coordinates —
falling back to the synthesized raw-coordinate address when that also fails;
without a key, the same Nominatim-then-synthesized order applies. -/
def geocodeLatLng (env : LatLngEnv) (lat lng : ℚ) : LatLngOutcome :=
  if env.hasKey then
    if env.quotaOk = false then .error
    else
      match env.googleResult with
      | some (a, la, lo) => .ok (.named a) la lo
      | none =>
        match env.nominatimAddr with
        | some a => .ok (.named a) lat lng
        | none => .ok (.rawCoords lat lng) lat lng
  else
    match env.nominatimAddr with
    | some a => .ok (.named a) lat lng
    | none => .ok (.rawCoords lat lng) lat lng

/-- C8 counterexample: with no key configured and Nominatim failing (total
provider failure) on an empty cache, `reverseGeocode` throws
`'Google Maps API key not configured'` to its caller — it does NOT return a
synthesized raw-coordinate address, refuting the claim that the
reverse-geocode operation returns such a string rather than failing. -/
theorem reverseGeocode_total_failure_counterexample :
    (reverseGeocode ⟨false, true, none, none⟩ (fun _ => none) 16 81).1 =
      RevOutcome.error := by
  rfl

/-- C8 (amended): the 6-decimal-rounded coordinates are the cache key of
`reverseGeocode` (a hit under that key is returned directly with zero provider
calls), but on total provider failure `reverseGeocode` throws (no-key case) —
the synthesized raw-coordinate address on total failure is produced by
`geocodeLatLng`, which performs no caching, and which indeed returns the raw
coordinates instead of failing whenever every provider fails. -/
theorem reverse_geocode_amended :
    (∀ (env : RevEnv) (cache : ℤ × ℤ → Option String) (lat lng : ℚ)
        (a : String), cache (round6 lat, round6 lng) = some a →
      reverseGeocode env cache lat lng = (RevOutcome.ok a, cache, 0))
    ∧ (∀ (q : Bool) (g : Option String) (cache : ℤ × ℤ → Option String)
        (lat lng : ℚ), cache (round6 lat, round6 lng) = none →
      (reverseGeocode ⟨false, q, g, none⟩ cache lat lng).1 = RevOutcome.error)
    ∧ (∀ (hk : Bool) (lat lng : ℚ),
      geocodeLatLng ⟨hk, true, none, none⟩ lat lng =
        LatLngOutcome.ok (Addr.rawCoords lat lng) lat lng) := by
  refine ⟨?_, ?_, ?_⟩
  · intro env cache lat lng a hhit
    unfold reverseGeocode
    rw [hhit]
  · intro q g cache lat lng hmiss
    unfold reverseGeocode
    rw [hmiss]
    rfl
  · intro hk lat lng
    cases hk <;> rfl

/-- C8 witness: the amended theorem at concrete inputs — a cache hit under the
rounded key for (16, 81) returns the cached address with zero provider calls;
total failure makes `reverseGeocode` throw; and `geocodeLatLng` synthesizes
the raw coordinates (16, 81). -/
theorem reverse_geocode_amended_witness :
    reverseGeocode ⟨true, false, none, none⟩
        (fun k => if k = (round6 16, round6 81) then some "MG Road" else none)
        16 81 =
      (RevOutcome.ok "MG Road",
        (fun k => if k = (round6 16, round6 81) then some "MG Road" else none),
        0)
    ∧ (reverseGeocode ⟨false, true, some "unused", none⟩ (fun _ => none)
        16 81).1 = RevOutcome.error
    ∧ geocodeLatLng ⟨true, true, none, none⟩ 16 81 =
        LatLngOutcome.ok (Addr.rawCoords 16 81) 16 81 := by
  refine ⟨?_, ?_, ?_⟩
  · exact reverse_geocode_amended.1 ⟨true, false, none, none⟩
      (fun k => if k = (round6 16, round6 81) then some "MG Road" else none)
      16 81 "MG Road" (by simp)
  · exact reverse_geocode_amended.2.1 true (some "unused") (fun _ => none)
      16 81 rfl
  · exact reverse_geocode_amended.2.2 true 16 81

/-- The inner `do..while` of `decodePolyline` (server.js:780, 784): consume
base-64-offset-63 characters (given by their char codes), accumulating 5-bit
groups (`result |= (b & 0x1f) << shift`, an OR of disjoint bit ranges, hence
addition) until a character without the continuation bit (`b < 0x20`).
Returns the accumulated value and the remaining characters; `none` models
running off the end of the string mid-varint (malformed input, which the
claim's encoder never produces). -/
def decodeChunks : List ℕ → ℕ → ℕ → Option (ℕ × List ℕ)
  | [], _, _ => none
  | c :: rest, shift, acc =>
    let b := c - 63
    let acc2 := acc + (b % 32) * 2 ^ shift
    if b ≥ 32 then decodeChunks rest (shift + 5) acc2
    else some (acc2, rest)

/-- `(result & 1) ? ~(result >> 1) : (result >> 1)` (server.js:781, 785):
JS `~x` is `-x - 1` on 32-bit integers, exact in `ℤ` within the coordinate
range. -/
def zigzagDecode (z : ℕ) : ℤ :=
  if z % 2 = 1 then -((z / 2 : ℕ) : ℤ) - 1 else ((z / 2 : ℕ) : ℤ)

/-- The `while (index < encoded.length)` loop of `decodePolyline`
(server.js:778-788), with fuel bounding the iteration count (each iteration
consumes at least one character, so `encoded.length` fuel always suffices):
decode a lat varint and a lng varint, accumulate the signed deltas, push
`{lat: lat * 1e-5, lng: lng * 1e-5}` and continue. -/
def decodePolyFuel : ℕ → List ℕ → ℤ → ℤ → Option (List (ℚ × ℚ))
  | _, [], _, _ => some []
  | 0, _ :: _, _, _ => none
  | fuel + 1, c :: cs, lat, lng =>
    match decodeChunks (c :: cs) 0 0 with
    | none => none
    | some (zlat, rest1) =>
      match decodeChunks rest1 0 0 with
      | none => none
      | some (zlng, rest2) =>
        match decodePolyFuel fuel rest2 (lat + zigzagDecode zlat)
            (lng + zigzagDecode zlng) with
        | none => none
        | some coords =>
          some ((((lat + zigzagDecode zlat : ℤ) : ℚ) / 100000,
                 ((lng + zigzagDecode zlng : ℤ) : ℚ) / 100000) :: coords)

/-- `decodePolyline(encoded)` (server.js:775-790) over the char codes of the
encoded string, cumulative lat/lng starting at 0. -/
def decodePolyline (encoded : List ℕ) : Option (List (ℚ × ℚ)) :=
  decodePolyFuel encoded.length encoded 0 0

/-- Modelled from the spec (§6 polyline encoding; the encoder itself lives in
the routing provider, not in this repository): zig-zag a signed integer into a
non-negative one — `2v` for `v ≥ 0`, `-2v - 1` for `v < 0`. -/
def zigzagEncode (v : ℤ) : ℕ :=
  if 0 ≤ v then 2 * v.toNat else 2 * (-v).toNat - 1

/-- Modelled from the spec: emit a non-negative integer as little-endian 5-bit
groups in base-64-offset-63 characters, continuation bit `0x20` set on all but
the final group. -/
def encodeVarint (z : ℕ) : List ℕ :=
  if h : z < 32 then [z + 63]
  else (z % 32 + 32 + 63) :: encodeVarint (z / 32)
termination_by z
decreasing_by exact Nat.div_lt_self (by omega) (by omega)

/-- Modelled from the spec: encode one signed delta. -/
def encodeSigned (v : ℤ) : List ℕ := encodeVarint (zigzagEncode v)

/-- Modelled from the spec: encode a polyline point list (as 1e5-scaled
integer coordinates) delta by delta against the previous point. -/
def encodePolylineAux : ℤ → ℤ → List (ℤ × ℤ) → List ℕ
  | _, _, [] => []
  | plat, plng, p :: rest =>
    encodeSigned (p.1 - plat) ++ encodeSigned (p.2 - plng) ++
      encodePolylineAux p.1 p.2 rest

/-- Modelled from the spec: encode a full polyline, deltas starting from 0. -/
def encodePolyline (pts : List (ℤ × ℤ)) : List ℕ := encodePolylineAux 0 0 pts

lemma decodePolyFuel_cons (f c : ℕ) (cs : List ℕ) (lat lng : ℤ) :
    decodePolyFuel (f + 1) (c :: cs) lat lng =
      match decodeChunks (c :: cs) 0 0 with
      | none => none
      | some (zlat, rest1) =>
        match decodeChunks rest1 0 0 with
        | none => none
        | some (zlng, rest2) =>
          match decodePolyFuel f rest2 (lat + zigzagDecode zlat)
              (lng + zigzagDecode zlng) with
          | none => none
          | some coords =>
            some ((((lat + zigzagDecode zlat : ℤ) : ℚ) / 100000,
                   ((lng + zigzagDecode zlng : ℤ) : ℚ) / 100000) :: coords) :=
  rfl

lemma encodeVarint_cons (z : ℕ) : ∃ c cs, encodeVarint z = c :: cs := by
  unfold encodeVarint
  split
  · exact ⟨z + 63, [], rfl⟩
  · exact ⟨z % 32 + 32 + 63, encodeVarint (z / 32), rfl⟩

lemma decodeChunks_encodeVarint :
    ∀ (z s a : ℕ) (rest : List ℕ),
      decodeChunks (encodeVarint z ++ rest) s a = some (a + z * 2 ^ s, rest) := by
  intro z
  induction z using Nat.strong_induction_on with
  | _ z ih =>
    intro s a rest
    by_cases hz : z < 32
    · rw [encodeVarint, dif_pos hz]
      show decodeChunks ((z + 63) :: rest) s a = some (a + z * 2 ^ s, rest)
      unfold decodeChunks
      rw [if_neg (by omega : ¬ z + 63 - 63 ≥ 32)]
      rw [show (z + 63 - 63) % 32 = z from by omega]
    · rw [encodeVarint, dif_neg hz]
      show decodeChunks ((z % 32 + 32 + 63) :: (encodeVarint (z / 32) ++ rest)) s a
          = some (a + z * 2 ^ s, rest)
      unfold decodeChunks
      rw [if_pos (by omega : z % 32 + 32 + 63 - 63 ≥ 32)]
      rw [show (z % 32 + 32 + 63 - 63) % 32 = z % 32 from by omega]
      rw [ih (z / 32) (Nat.div_lt_self (by omega) (by omega)) (s + 5)
        (a + z % 32 * 2 ^ s) rest]
      congr 1
      congr 1
      have hsplit : z % 32 + 32 * (z / 32) = z := Nat.mod_add_div z 32
      calc a + z % 32 * 2 ^ s + z / 32 * 2 ^ (s + 5)
          = a + (z % 32 + 32 * (z / 32)) * 2 ^ s := by
            rw [pow_add]
            ring
        _ = a + z * 2 ^ s := by rw [hsplit]

lemma decodeChunks_encodeSigned (v : ℤ) (rest : List ℕ) :
    decodeChunks (encodeSigned v ++ rest) 0 0 = some (zigzagEncode v, rest) := by
  have h := decodeChunks_encodeVarint (zigzagEncode v) 0 0 rest
  simpa using h

lemma zigzag_roundtrip (v : ℤ) : zigzagDecode (zigzagEncode v) = v := by
  unfold zigzagEncode zigzagDecode
  by_cases h : 0 ≤ v
  · rw [if_pos h]
    rw [if_neg (by omega : ¬ (2 * v.toNat) % 2 = 1)]
    have h2 : (2 * v.toNat) / 2 = v.toNat := by omega
    rw [h2, Int.toNat_of_nonneg h]
  · rw [if_neg h]
    have hm : (((-v).toNat : ℤ)) = -v := Int.toNat_of_nonneg (by omega)
    have hm1 : 1 ≤ (-v).toNat := by omega
    rw [if_pos (by omega : (2 * (-v).toNat - 1) % 2 = 1)]
    omega

lemma length_le_encodeAux :
    ∀ (pts : List (ℤ × ℤ)) (plat plng : ℤ),
      pts.length ≤ (encodePolylineAux plat plng pts).length := by
  intro pts
  induction pts with
  | nil => intro plat plng; simp [encodePolylineAux]
  | cons p rest ih =>
    intro plat plng
    obtain ⟨c, cs, hc⟩ := encodeVarint_cons (zigzagEncode (p.1 - plat))
    have h1 : 1 ≤ (encodeSigned (p.1 - plat)).length := by
      unfold encodeSigned
      rw [hc]
      simp
    have h2 := ih p.1 p.2
    simp only [encodePolylineAux, List.length_append, List.length_cons]
    omega

lemma decodeFuel_encodeAux :
    ∀ (pts : List (ℤ × ℤ)) (plat plng : ℤ) (fuel : ℕ),
      pts.length ≤ fuel →
      decodePolyFuel fuel (encodePolylineAux plat plng pts) plat plng =
        some (pts.map fun p => ((p.1 : ℚ) / 100000, (p.2 : ℚ) / 100000)) := by
  intro pts
  induction pts with
  | nil =>
    intro plat plng fuel _
    cases fuel <;> rfl
  | cons p rest ih =>
    intro plat plng fuel hfuel
    cases fuel with
    | zero => simp at hfuel
    | succ f =>
      obtain ⟨c, cs, hc⟩ := encodeVarint_cons (zigzagEncode (p.1 - plat))
      have hchars : encodePolylineAux plat plng (p :: rest)
          = c :: (cs ++ (encodeSigned (p.2 - plng) ++
              encodePolylineAux p.1 p.2 rest)) := by
        show encodeSigned (p.1 - plat) ++ encodeSigned (p.2 - plng) ++
            encodePolylineAux p.1 p.2 rest = _
        rw [List.append_assoc]
        unfold encodeSigned
        rw [hc]
        rfl
      rw [hchars]
      have hd1 : decodeChunks (c :: (cs ++ (encodeSigned (p.2 - plng) ++
            encodePolylineAux p.1 p.2 rest))) 0 0
          = some (zigzagEncode (p.1 - plat),
              encodeSigned (p.2 - plng) ++ encodePolylineAux p.1 p.2 rest) := by
        have h := decodeChunks_encodeSigned (p.1 - plat)
          (encodeSigned (p.2 - plng) ++ encodePolylineAux p.1 p.2 rest)
        rw [show encodeSigned (p.1 - plat) = c :: cs from by
          unfold encodeSigned; exact hc] at h
        simpa using h
      have hd2 : decodeChunks (encodeSigned (p.2 - plng) ++
            encodePolylineAux p.1 p.2 rest) 0 0
          = some (zigzagEncode (p.2 - plng), encodePolylineAux p.1 p.2 rest) :=
        decodeChunks_encodeSigned _ _
      rw [decodePolyFuel_cons]
      simp only [hd1, hd2]
      rw [zigzag_roundtrip, zigzag_roundtrip]
      rw [show plat + (p.1 - plat) = p.1 from by ring,
        show plng + (p.2 - plng) = p.2 from by ring]
      rw [ih p.1 p.2 f (by simpa using hfuel)]
      rfl

/-- C9: `decodePolyline` exactly inverts the documented polyline encoding:
for every finite coordinate sequence at 1e-5 degree resolution (given as
1e5-scaled integers, within the range where JS 32-bit bitwise arithmetic
coincides with exact integer arithmetic), encoding each coordinate delta
(scale by 1e5, zig-zag, 5-bit groups with continuation bits, offset 63) and
decoding reconstructs the original cumulative lat/lng sequence in degrees. -/
theorem decodePolyline_inverts_encoding (pts : List (ℤ × ℤ))
    (hbound : ∀ p ∈ pts, p.1.natAbs ≤ 9000000 ∧ p.2.natAbs ≤ 18000000) :
    decodePolyline (encodePolyline pts) =
      some (pts.map fun p => ((p.1 : ℚ) / 100000, (p.2 : ℚ) / 100000)) := by
  unfold decodePolyline encodePolyline
  exact decodeFuel_encodeAux pts 0 0 _ (length_le_encodeAux pts 0 0)

/-- C9 witness: the round trip at the concrete two-point polyline
(16.50000, 80.65000), (16.50100, 80.64900). -/
theorem decodePolyline_inverts_encoding_witness :
    decodePolyline (encodePolyline
        [((1650000 : ℤ), (8065000 : ℤ)), ((1650100 : ℤ), (8064900 : ℤ))]) =
      some ([((1650000 : ℤ), (8065000 : ℤ)),
          ((1650100 : ℤ), (8064900 : ℤ))].map
        fun p => ((p.1 : ℚ) / 100000, (p.2 : ℚ) / 100000)) := by
  exact decodePolyline_inverts_encoding _ (by decide)

end BusTransport
